import Mathlib

/-!
Verification development for the EffiCode-Analyzer pseudocode complexity
analyzer.  The Python sources are shallowly embedded below:

* `CostExpr` models the sympy expressions built by
  `Servicios/EfficiencyVisitor.py` (symbols `n`, `c_i`, `t_j_mejor`,
  `Add`, `Mul`, `Max`, `Min` and bounded `Sum`).
* `Stmt` models the Python `ast` statement nodes the visitor dispatches on.
* `EfficiencyVisitor` models the cost-accumulating visitor.
* `Analizador` models `Modelos/Analizador.py` (the `analizar` entry point,
  `_analizar_eficiencia`, `calcular_o`, `calcular_omega`).
* `Grammar`/`Parser` model `Servicios/Grammar.py` and `Modelos/Parser.py`
  (tokenizer plus a recursive-descent recognizer of the Lark grammar, and
  the `parsear` pipeline with its external LLM translation step passed in
  as an explicit oracle).
-/

namespace EffiCode

/-- Symbolic cost expressions, modelling the sympy expressions constructed by
`EfficiencyVisitor`: integer literals, the size symbol `n`, the opaque
constants `c_i` (sympy `Symbol('c_i')`; sub-visitors restart the index at 1,
and sympy identifies symbols by name), the symbol `t_j_mejor`, addition,
multiplication, `Max`, `Min`, and a bounded `Sum` from 1 to `hi`.  Every
summand the visitor ever builds is independent of the summation variable
(cost expressions only mention `n`, `c_i` and `t_j_mejor`), so the `Sum`
constructor does not carry the variable name. -/
inductive CostExpr where
  | num (k : Int)
  | sn
  | c (i : Nat)
  | tj
  | add (a b : CostExpr)
  | mul (a b : CostExpr)
  | smax (a b : CostExpr)
  | smin (a b : CostExpr)
  | ssum (body hi : CostExpr)
deriving DecidableEq, Repr

namespace CostExpr

/-- Addition as performed by sympy's `+` on these expressions: `0` is absorbed
and numeric literals are folded; everything else stays a symbolic `Add`. -/
def addE : CostExpr → CostExpr → CostExpr
  | num 0, b => b
  | a, num 0 => a
  | num j, num k => num (j + k)
  | a, b => add a b

/-- Multiplication as performed by sympy: `0` and `1` are absorbed and numeric
literals are folded; everything else stays a symbolic `Mul`. -/
def mulE : CostExpr → CostExpr → CostExpr
  | num 0, _ => num 0
  | _, num 0 => num 0
  | num 1, b => b
  | a, num 1 => a
  | num j, num k => num (j * k)
  | a, b => mul a b

/-- sympy `Max`: identical arguments collapse, concrete numbers are compared,
otherwise the expression stays symbolic. -/
def maxE (a b : CostExpr) : CostExpr :=
  if a = b then a
  else
    match a, b with
    | num j, num k => num (max j k)
    | a, b => smax a b

/-- sympy `Min`: identical arguments collapse, concrete numbers are compared,
otherwise the expression stays symbolic. -/
def minE (a b : CostExpr) : CostExpr :=
  if a = b then a
  else
    match a, b with
    | num j, num k => num (min j k)
    | a, b => smin a b

/-- sympy `Sum(body, (v, 1, hi))` with `body` independent of `v`: a zero
summand collapses to `0`, otherwise the `Sum` stays unevaluated until
`doit`. -/
def ssumE (body hi : CostExpr) : CostExpr :=
  if body = num 0 then num 0 else ssum body hi

/-- Models sympy's `.doit()` on the visitor's cost expressions: every bounded
`Sum` of a summand independent of the iteration variable evaluates to
`hi * body`. -/
def doit : CostExpr → CostExpr
  | num k => num k
  | sn => sn
  | c i => c i
  | tj => tj
  | add a b => addE (doit a) (doit b)
  | mul a b => mulE (doit a) (doit b)
  | smax a b => maxE (doit a) (doit b)
  | smin a b => minE (doit a) (doit b)
  | ssum body hi => mulE (doit hi) (doit body)

/-- Degree in `n` of a cost expression.  After `doit` the visitor's cost
functions are polynomials in `n` whose coefficients are (`Max`/`Min`
combinations of) the opaque constants, so the dominant term extracted by
`sympy.O(expr, (n, oo)).args[0]` is `n ^ degN expr` with the coefficient
stripped (`1` for expressions without `n`). -/
def degN : CostExpr → Nat
  | num _ => 0
  | sn => 1
  | c _ => 0
  | tj => 0
  | add a b => max (degN a) (degN b)
  | mul a b => degN a + degN b
  | smax a b => max (degN a) (degN b)
  | smin a b => min (degN a) (degN b)
  | ssum body hi => degN body + degN hi

/-- String rendering of the dominant term `sympy.O(expr, (n, oo)).args[0]`,
as interpolated by `Analizador.analizar` into the notation strings:
`1`, `n`, `n**2`, ... -/
def ordenStr (e : CostExpr) : String :=
  if degN e = 0 then "1"
  else if degN e = 1 then "n"
  else "n**" ++ toString (degN e)

/-- Plain rendering of a cost expression (models `str(expr)` as used for the
`funcion_*_str` fields and the per-line cost strings; the claims never depend
on the exact sympy printing, only on the structure of the expressions). -/
def strE : CostExpr → String
  | num k => toString k
  | sn => "n"
  | c i => "c_" ++ toString i
  | tj => "t_j_mejor"
  | add a b => strE a ++ " + " ++ strE b
  | mul a b => "(" ++ strE a ++ ")*(" ++ strE b ++ ")"
  | smax a b => "Max(" ++ strE a ++ ", " ++ strE b ++ ")"
  | smin a b => "Min(" ++ strE a ++ ", " ++ strE b ++ ")"
  | ssum body hi => "Sum(" ++ strE body ++ ", (i, 1, " ++ strE hi ++ "))"

end CostExpr

/-- Literal-or-symbolic bound of a `for` range in the translated Python code
(`range(lo, hi)` in `node.iter`).  `EfficiencyVisitor.visit_For` never reads
`node.iter`, so these fields are carried only so that the specification's
"both bounds are literal constants" case is expressible. -/
inductive Bound where
  | lit (k : Int)
  | sym (name : String)
deriving DecidableEq, Repr

/-- Python `ast` statement nodes, restricted to the kinds the analyzed
(LLM-translated) programs contain and `EfficiencyVisitor` dispatches on:
`Assign`, `If` (body / orelse), `For` (target, iteration bounds, body),
`While`, `Break`, `Return`, expression statements wrapping a `Call`, and
`FunctionDef`.  Expression subtrees carry no statements in Python, so they
are not modelled (the visitor charges no cost inside expressions). -/
inductive Stmt where
  | assign (lineno : Nat)
  | ifStmt (lineno : Nat) (body orelse : List Stmt)
  | forStmt (lineno : Nat) (target : String) (lo hi : Bound) (body : List Stmt)
  | whileStmt (lineno : Nat) (body : List Stmt)
  | breakStmt (lineno : Nat)
  | returnStmt (lineno : Nat)
  | exprCall (lineno : Nat)
  | functionDef (lineno : Nat) (name : String) (body : List Stmt)
deriving Repr

mutual

/-- Does the subtree rooted at a statement contain an `ast.Break` node?
Models `any(isinstance(sn, ast.Break) for sn in ast.walk(node))` restricted
to one statement: `ast.walk` yields every descendant, descending into `if`
branches, loop bodies and also into nested `FunctionDef` bodies. -/
def containsBreak : Stmt → Bool
  | .assign _ => false
  | .ifStmt _ body orelse => anyBreak body || anyBreak orelse
  | .forStmt _ _ _ _ body => anyBreak body
  | .whileStmt _ body => anyBreak body
  | .breakStmt _ => true
  | .returnStmt _ => false
  | .exprCall _ => false
  | .functionDef _ _ body => anyBreak body

/-- `containsBreak` over a list of statements. -/
def anyBreak : List Stmt → Bool
  | [] => false
  | s :: rest => containsBreak s || anyBreak rest

end

/-- One entry of the `line_costs` list: `(node.lineno, cost_str, description)`. -/
structure LineCost where
  lineno : Nat
  costStr : String
  descripcion : String
deriving DecidableEq, Repr

namespace EfficiencyVisitor

open CostExpr

/-- The mutable state of an `EfficiencyVisitor` instance: the next constant
index (`const_idx`, starting at 1), the per-line cost log, and the
accumulated worst- and best-case cost expressions (both starting at `0`). -/
structure VState where
  constIdx : Nat
  lineCosts : List LineCost
  worst : CostExpr
  best : CostExpr
deriving DecidableEq, Repr

/-- A freshly constructed `EfficiencyVisitor()`. -/
def initState : VState := ⟨1, [], .num 0, .num 0⟩

/-- `_get_const`: returns `Symbol('c_{const_idx}')` and bumps the counter. -/
def getConst (s : VState) : CostExpr × VState :=
  (.c s.constIdx, { s with constIdx := s.constIdx + 1 })

/-- The `cost_str` built by `_add_cost`: `"Peor: {worst}"`, extended with
`", Mejor: {best}"` when the two costs differ. -/
def costStr (w b : CostExpr) : String :=
  "Peor: " ++ strE w ++ (if w ≠ b then ", Mejor: " ++ strE b else "")

/-- `_add_cost(node, description, worst_cost, best_cost)`: `best_cost = None`
defaults to the worst cost; both accumulators are increased and one
`LineCost` is appended. -/
def addCost (s : VState) (lineno : Nat) (descripcion : String)
    (w : CostExpr) (b : Option CostExpr) : VState :=
  let bc := b.getD w
  { s with
    worst := addE s.worst w
    best := addE s.best bc
    lineCosts := s.lineCosts ++ [⟨lineno, costStr w bc, descripcion⟩] }

/-- Tag a sub-visitor's line costs, as in
`[(ln, c, f"  ({tag}) {d}") for ln, c, d in sub.line_costs]`. -/
def tagCosts (tag : String) (l : List LineCost) : List LineCost :=
  l.map fun lc => { lc with descripcion := tag ++ lc.descripcion }

mutual

/-- `EfficiencyVisitor.visit` on one statement, threading the visitor state.
Statement kinds without a dedicated `visit_*` method fall through to
`generic_visit`, which recurses into child statements (relevant only for
`FunctionDef`, whose body is visited by the same visitor) and otherwise
changes nothing: expression children never carry costs. -/
def visit (s : VState) : Stmt → VState
  | .assign ln =>
      -- visit_Assign: one fresh constant, worst = best, one LineCost; the
      -- trailing generic_visit only reaches expression children.
      let (costo, s1) := getConst s
      addCost s1 ln "Asignación" costo none
  | .ifStmt ln body orelse =>
      -- visit_If: fresh constant for the test, then two fresh sub-visitors
      -- for the branches; Max of worsts, Min of bests; both branch traces
      -- are appended (the else trace only when `node.orelse` is non-empty).
      let (costoTest, s1) := getConst s
      let s2 := addCost s1 ln "Evaluación de condición if" costoTest none
      let vIf := visitList initState body
      let vElse := visitList initState orelse
      let s3 := { s2 with
        worst := addE s2.worst (maxE vIf.worst vElse.worst)
        best := addE s2.best (minE vIf.best vElse.best)
        lineCosts := s2.lineCosts ++ tagCosts "  (Rama if) " vIf.lineCosts }
      if orelse.isEmpty then s3
      else { s3 with
        lineCosts := s3.lineCosts ++ tagCosts "  (Rama else) " vElse.lineCosts }
  | .forStmt ln _ _ _ body =>
      -- visit_For: the upper limit is always the symbol n (the code reads
      -- neither bound of node.iter); fresh constant for init+test; the body
      -- is analyzed by a fresh sub-visitor and both cases are summed from
      -- 1 to n.
      let (costo, s1) := getConst s
      let s2 := addCost s1 ln "Inicialización y test del bucle for" costo none
      let vCuerpo := visitList initState body
      { s2 with
        worst := addE s2.worst (ssumE vCuerpo.worst .sn)
        best := addE s2.best (ssumE vCuerpo.best .sn)
        lineCosts := s2.lineCosts ++ tagCosts "  (Dentro de for) " vCuerpo.lineCosts }
  | .whileStmt ln body =>
      -- visit_While: worst-case trip count n; best-case trip count is the
      -- opaque symbol t_j_mejor unless ast.walk finds a Break anywhere in
      -- the while subtree, in which case it is the number 1.  The test is
      -- charged tripCount + 1 times, the body tripCount times.
      let hayBreak := anyBreak body
      let tjMejor : CostExpr := if hayBreak then .num 1 else .tj
      let vCuerpo := visitList initState body
      let (costoTest, s1) := getConst s
      let s2 := addCost s1 ln "Test de condición while"
        (ssumE costoTest (addE .sn (.num 1)))
        (some (ssumE costoTest (addE tjMejor (.num 1))))
      { s2 with
        worst := addE s2.worst (ssumE vCuerpo.worst .sn)
        best := addE s2.best (ssumE vCuerpo.best tjMejor)
        lineCosts := s2.lineCosts ++ tagCosts "  (Dentro de while) " vCuerpo.lineCosts }
  | .breakStmt _ => s
  | .returnStmt _ => s
  | .exprCall _ => s
  | .functionDef _ _ body => visitList s body

/-- Visit a list of statements in order with the same visitor. -/
def visitList (s : VState) : List Stmt → VState
  | [] => s
  | t :: rest => visitList (visit s t) rest

end

/-- Run a fresh visitor over a whole module (`visitor.visit(ast.Module)`
dispatches to `generic_visit`, which visits the top-level statements in
order with the same visitor). -/
def run (prog : List Stmt) : VState := visitList initState prog

end EfficiencyVisitor

namespace Analizador

open CostExpr EfficiencyVisitor

/-- Value stored under one key of the `_ultimo_analisis` dictionary. -/
inductive DictVal where
  | nat (k : Nat)
  | bool (b : Bool)
  | str (s : String)
  | costE (e : CostExpr)
  | trace (t : List LineCost)
deriving Repr

/-- The `_ultimo_analisis` dictionary: an association list of string keys. -/
def Dict := List (String × DictVal)

/-- `d.get(key, default)` for a natural-number default (used by
`calcular_o`/`calcular_omega` for `"max_profundidad"`). -/
def dictGetNat (d : Dict) (key : String) (dflt : Nat) : Nat :=
  match d.find? (fun kv => kv.fst = key) with
  | some (_, .nat k) => k
  | _ => dflt

/-- `d.get(key, default)` for a boolean default (used by `calcular_omega`
for `"hay_salida_temprana"`). -/
def dictGetBool (d : Dict) (key : String) (dflt : Bool) : Bool :=
  match d.find? (fun kv => kv.fst = key) with
  | some (_, .bool b) => b
  | _ => dflt

/-- `Analizador._analizar_eficiencia`: runs an `EfficiencyVisitor` over the
tree and returns the dictionary with exactly the five keys
`desglose_costos`, `funcion_peor_caso`, `funcion_mejor_caso`,
`funcion_peor_caso_str`, `funcion_mejor_caso_str` (the cost functions after
`.doit()`). -/
def analizar_eficiencia (prog : List Stmt) : Dict :=
  let visitor := EfficiencyVisitor.run prog
  let tPeor := doit visitor.worst
  let tMejor := doit visitor.best
  [ ("desglose_costos", .trace visitor.lineCosts),
    ("funcion_peor_caso", .costE tPeor),
    ("funcion_mejor_caso", .costE tMejor),
    ("funcion_peor_caso_str", .str (strE tPeor)),
    ("funcion_mejor_caso_str", .str (strE tMejor)) ]

/-- `Analizador.calcular_o`: reads `max_profundidad` from the stored last
analysis with default `0`. -/
def calcular_o (ultimo : Dict) : String :=
  let profundidad := dictGetNat ultimo "max_profundidad" 0
  if profundidad = 0 then "O(1)"
  else if profundidad = 1 then "O(n)"
  else "O(n^" ++ toString profundidad ++ ")"

/-- `Analizador.calcular_omega`: reads `max_profundidad` (default `0`) and
`hay_salida_temprana` (default `False`) from the stored last analysis. -/
def calcular_omega (ultimo : Dict) : String :=
  let profundidad := dictGetNat ultimo "max_profundidad" 0
  let salidaTemprana := dictGetBool ultimo "hay_salida_temprana" false
  if profundidad = 0 then "Ω(1)"
  else if salidaTemprana then "Ω(1)"
  else if profundidad = 1 then "Ω(n)"
  else "Ω(n^" ++ toString profundidad ++ ")"

/-- The `Complejidad` object produced by `Analizador.analizar`. -/
structure Complejidad where
  notacionO : String
  notacionOmega : String
  notacionTheta : String
  justificacion : String
deriving DecidableEq, Repr

/-- The divergence note appended to the justification when the two dominant
terms differ (`analizar`, step 4). -/
def notaDivergencia : String :=
  "Las cotas del mejor y peor caso difieren, por lo que no se establece una cota ajustada Θ simple."

/-- One line of the per-line cost breakdown in the justification. -/
def lineaDesglose (lc : LineCost) : String :=
  "- Línea " ++ toString lc.lineno ++ ": " ++ lc.descripcion ++ " | Costo -> " ++ lc.costStr ++ "\n"

/-- `Analizador.analizar` on a parsed program: runs `_analizar_eficiencia`,
derives the dominant terms of the two cost functions via
`sympy.O(·, (n, oo)).args[0]`, sets Θ to `Θ(orden_peor)` exactly when the
two dominant terms coincide and to the string `"No aplicable"` otherwise,
and assembles the justification text. -/
def analizar (prog : List Stmt) : Complejidad :=
  let visitor := EfficiencyVisitor.run prog
  let tPeor := doit visitor.worst
  let tMejor := doit visitor.best
  let ordenPeor := ordenStr tPeor
  let ordenMejor := ordenStr tMejor
  let notacionO := "O(" ++ ordenPeor ++ ")"
  let notacionOmega := "Ω(" ++ ordenMejor ++ ")"
  let notacionTheta := if ordenPeor = ordenMejor then "Θ(" ++ ordenPeor ++ ")" else "No aplicable"
  let cabecera :=
    "El análisis de eficiencia se ha realizado línea por línea, generando funciones de coste para el peor y mejor caso, basado en los principios del Capítulo 2 de 'Introduction to Algorithms'.\n\n"
    ++ "Función de Peor Caso T(n) = " ++ strE tPeor ++ "\n"
    ++ "Función de Mejor Caso T(n) = " ++ strE tMejor ++ "\n\n"
    ++ "**Desglose de Costos por Línea:**\n"
  let conDesglose := visitor.lineCosts.foldl (fun acc lc => acc ++ lineaDesglose lc) cabecera
  let conConclusion := conDesglose
    ++ "\n**Conclusión Asintótica:**\n"
    ++ "- **Peor Caso (O)**: El término dominante de la función de peor caso es **" ++ ordenPeor
    ++ "**, resultando en una complejidad de **" ++ notacionO ++ "**.\n"
    ++ "- **Mejor Caso (Ω)**: El término dominante de la función de mejor caso es **" ++ ordenMejor
    ++ "**, resultando en una complejidad de **" ++ notacionOmega ++ "**.\n"
    ++ "- **Caso Promedio (Θ)**: "
  let justificacion := conConclusion ++
    (if notacionTheta ≠ "No aplicable" then
      "Dado que las cotas del mejor y peor caso coinciden, la complejidad es **" ++ notacionTheta ++ "**."
    else notaDivergencia)
  ⟨notacionO, notacionOmega, notacionTheta, justificacion⟩

/-- The value of `self._ultimo_analisis` right after a successful call to
`analizar` (step 1 of `analizar` assigns the `_analizar_eficiencia`
dictionary to it). -/
def ultimoTrasAnalizar (prog : List Stmt) : Dict := analizar_eficiencia prog

end Analizador

namespace Grammar

/-- Lexical tokens of the pseudocode dialect, one constructor per terminal
family of the Lark grammar in `Servicios/Grammar.py`: identifiers, numbers,
the keyword strings appearing in the productions, the assignment arrow `←`,
the six relational operators, the arithmetic operators, brackets, dot and
comma. -/
inductive Token where
  | ident (s : String)
  | number (s : String)
  | kw (s : String)
  | arrow
  | relop (c : Char)
  | plus
  | minus
  | star
  | slash
  | lparen
  | rparen
  | lbracket
  | rbracket
  | dot
  | comma
deriving DecidableEq, Repr

/-- The keyword strings used by the grammar's productions. -/
def keywords : List String :=
  ["if", "then", "else", "for", "to", "downto", "do", "while", "return",
   "and", "or", "not", "div", "mod"]

/-- First character of `IDENTIFICADOR`: `[a-zA-Z_]`. -/
def isIdentStart (c : Char) : Bool := c.isAlpha || c = '_'

/-- Later characters of `IDENTIFICADOR`: `[a-zA-Z0-9_-]`. -/
def isIdentChar (c : Char) : Bool := c.isAlphanum || c = '_' || c = '-'

/-- The six `REL_OP` characters. -/
def isRelOp (c : Char) : Bool :=
  c = '≤' || c = '≥' || c = '≠' || c = '=' || c = '<' || c = '>'

/-- Result of one lexer step on the first pending character: ignore a span
(whitespace or a comment), emit a token, or fail. -/
inductive LexStep where
  | skip (rest : List Char)
  | emit (tk : Token) (rest : List Char)
  | fail
deriving DecidableEq, Repr

/-- One lexer step at character `ch` with pending input `rest`.  Whitespace
is skipped (`%ignore WS`), `//`-comments run to the end of the line
(`COMMENT: "//" /[^\n]*/`, `%ignore COMMENT`), then the terminals: `←`, the
six `REL_OP` characters, the single-character operators and delimiters,
`IDENTIFICADOR` (maximal run; keyword strings are reserved) and `NUMBER`
(modelled as a digit run — the dialect's inputs here use integer literals).
A character that starts no terminal — in particular `:` — fails the lexer,
which is how Lark rejects it. -/
def lexStep (ch : Char) (rest : List Char) : LexStep :=
  if ch.isWhitespace then .skip rest
  else if ch = '/' && rest.head? = some '/' then
    .skip (rest.dropWhile (fun d => d ≠ '\n'))
  else if ch = '←' then .emit .arrow rest
  else if isRelOp ch then .emit (.relop ch) rest
  else if ch = '+' then .emit .plus rest
  else if ch = '-' then .emit .minus rest
  else if ch = '*' then .emit .star rest
  else if ch = '/' then .emit .slash rest
  else if ch = '(' then .emit .lparen rest
  else if ch = ')' then .emit .rparen rest
  else if ch = '[' then .emit .lbracket rest
  else if ch = ']' then .emit .rbracket rest
  else if ch = '.' then .emit .dot rest
  else if ch = ',' then .emit .comma rest
  else if isIdentStart ch then
    let name := (ch :: rest.takeWhile isIdentChar).asString
    .emit (if keywords.contains name then .kw name else .ident name)
      (rest.dropWhile isIdentChar)
  else if ch.isDigit then
    .emit (.number (ch :: rest.takeWhile Char.isDigit).asString)
      (rest.dropWhile Char.isDigit)
  else .fail

/-- Tokenizer for the dialect, with explicit fuel (each step consumes at
least one character, so `cs.length` fuel suffices). -/
def tokenizeAux : Nat → List Char → Option (List Token)
  | _, [] => some []
  | 0, _ :: _ => none
  | fuel + 1, ch :: rest =>
    match lexStep ch rest with
    | .skip r => tokenizeAux fuel r
    | .emit tk r => (tokenizeAux fuel r).map (tk :: ·)
    | .fail => none

/-- Tokenize a source string. -/
def tokenize (s : String) : Option (List Token) :=
  tokenizeAux s.data.length s.data

/-- Dropping a prefix never lengthens a list. -/
theorem length_dropWhile_le {α : Type} (p : α → Bool) :
    ∀ l : List α, (l.dropWhile p).length ≤ l.length := by
  intro l
  induction l with
  | nil => simp [List.dropWhile]
  | cons a xs ih =>
    by_cases h : p a
    · simp [List.dropWhile, h]
      omega
    · simp [List.dropWhile, h]

/-- The characters of the input outside `//`-comments (the part the lexer
actually has to turn into tokens); the comment test mirrors the tokenizer's
comment branch. -/
def stripComments : List Char → List Char
  | [] => []
  | ch :: rest =>
    if ch = '/' && rest.head? = some '/' then
      stripComments (rest.dropWhile (fun d => d ≠ '\n'))
    else
      ch :: stripComments rest
termination_by l => l.length
decreasing_by
  all_goals simp only [List.length_cons]
  · have := length_dropWhile_le (fun d => d ≠ '\n') rest
    omega
  · omega

/-- Token streams consumed by the recognizer. -/
abbrev Toks := List Token

mutual

/-- `variable: IDENTIFICADOR ("." IDENTIFICADOR | "[" expresion "]")*` -/
def pVariable : Nat → Toks → Option Toks
  | 0, _ => none
  | f + 1, ts =>
    match ts with
    | .ident _ :: rest => pVariableTail f rest
    | _ => none

/-- The accessor star of `variable`, stopping before anything that is not a
further `.field` or `[index]` accessor. -/
def pVariableTail : Nat → Toks → Option Toks
  | 0, _ => none
  | f + 1, ts =>
    match ts with
    | .dot :: .ident _ :: rest => pVariableTail f rest
    | .lbracket :: rest =>
      match pExpresion f rest with
      | some (.rbracket :: r) => pVariableTail f r
      | _ => some ts
    | _ => some ts

/-- `call_funcion: IDENTIFICADOR "(" [argumento_lista] ")"` -/
def pCallFuncion : Nat → Toks → Option Toks
  | 0, _ => none
  | f + 1, ts =>
    match ts with
    | .ident _ :: .lparen :: .rparen :: rest => some rest
    | .ident _ :: .lparen :: rest =>
      match pArgumentoLista f rest with
      | some (.rparen :: r) => some r
      | _ => none
    | _ => none

/-- `argumento_lista: expresion ("," expresion)*` -/
def pArgumentoLista : Nat → Toks → Option Toks
  | 0, _ => none
  | f + 1, ts =>
    match pExpresion f ts with
    | some (.comma :: rest) => pArgumentoLista f rest
    | some r => some r
    | none => none

/-- `?expresion: bool_or` (also used for `?condicion: expresion`). -/
def pExpresion : Nat → Toks → Option Toks
  | 0, _ => none
  | f + 1, ts => pBoolOr f ts

/-- `?bool_or: bool_and ("or" bool_and)*` -/
def pBoolOr : Nat → Toks → Option Toks
  | 0, _ => none
  | f + 1, ts =>
    match pBoolAnd f ts with
    | some r => pBoolOrTail f r
    | none => none

/-- The `("or" bool_and)*` star. -/
def pBoolOrTail : Nat → Toks → Option Toks
  | 0, _ => none
  | f + 1, ts =>
    match ts with
    | .kw "or" :: rest =>
      match pBoolAnd f rest with
      | some r => pBoolOrTail f r
      | none => none
    | _ => some ts

/-- `?bool_and: bool_not ("and" bool_not)*` -/
def pBoolAnd : Nat → Toks → Option Toks
  | 0, _ => none
  | f + 1, ts =>
    match pBoolNot f ts with
    | some r => pBoolAndTail f r
    | none => none

/-- The `("and" bool_not)*` star. -/
def pBoolAndTail : Nat → Toks → Option Toks
  | 0, _ => none
  | f + 1, ts =>
    match ts with
    | .kw "and" :: rest =>
      match pBoolNot f rest with
      | some r => pBoolAndTail f r
      | none => none
    | _ => some ts

/-- `?bool_not: "not" bool_not | comparacion` -/
def pBoolNot : Nat → Toks → Option Toks
  | 0, _ => none
  | f + 1, ts =>
    match ts with
    | .kw "not" :: rest => pBoolNot f rest
    | _ => pComparacion f ts

/-- `?comparacion: aritmetica (REL_OP aritmetica)*` -/
def pComparacion : Nat → Toks → Option Toks
  | 0, _ => none
  | f + 1, ts =>
    match pAritmetica f ts with
    | some r => pComparacionTail f r
    | none => none

/-- The `(REL_OP aritmetica)*` star. -/
def pComparacionTail : Nat → Toks → Option Toks
  | 0, _ => none
  | f + 1, ts =>
    match ts with
    | .relop _ :: rest =>
      match pAritmetica f rest with
      | some r => pComparacionTail f r
      | none => none
    | _ => some ts

/-- `?aritmetica: term (("+"|"-") term)*` -/
def pAritmetica : Nat → Toks → Option Toks
  | 0, _ => none
  | f + 1, ts =>
    match pTerm f ts with
    | some r => pAritmeticaTail f r
    | none => none

/-- The `(("+"|"-") term)*` star. -/
def pAritmeticaTail : Nat → Toks → Option Toks
  | 0, _ => none
  | f + 1, ts =>
    match ts with
    | .plus :: rest =>
      match pTerm f rest with
      | some r => pAritmeticaTail f r
      | none => none
    | .minus :: rest =>
      match pTerm f rest with
      | some r => pAritmeticaTail f r
      | none => none
    | _ => some ts

/-- `?term: factor (("*"|"/"|"div"|"mod") factor)*` -/
def pTerm : Nat → Toks → Option Toks
  | 0, _ => none
  | f + 1, ts =>
    match pFactor f ts with
    | some r => pTermTail f r
    | none => none

/-- The `(("*"|"/"|"div"|"mod") factor)*` star. -/
def pTermTail : Nat → Toks → Option Toks
  | 0, _ => none
  | f + 1, ts =>
    match ts with
    | .star :: rest =>
      match pFactor f rest with
      | some r => pTermTail f r
      | none => none
    | .slash :: rest =>
      match pFactor f rest with
      | some r => pTermTail f r
      | none => none
    | .kw "div" :: rest =>
      match pFactor f rest with
      | some r => pTermTail f r
      | none => none
    | .kw "mod" :: rest =>
      match pFactor f rest with
      | some r => pTermTail f r
      | none => none
    | _ => some ts

/-- `?factor: ("+"|"-") factor | atomo` -/
def pFactor : Nat → Toks → Option Toks
  | 0, _ => none
  | f + 1, ts =>
    match ts with
    | .plus :: rest => pFactor f rest
    | .minus :: rest => pFactor f rest
    | _ => pAtomo f ts

/-- `?atomo: NUMBER | variable | "(" expresion ")" | call_funcion`
(a call is tried before a bare variable so that an identifier followed by
`(` is recognized as the call alternative). -/
def pAtomo : Nat → Toks → Option Toks
  | 0, _ => none
  | f + 1, ts =>
    match pCallFuncion f ts with
    | some r => some r
    | none =>
      match ts with
      | .number _ :: rest => some rest
      | .lparen :: rest =>
        match pExpresion f rest with
        | some (.rparen :: r) => some r
        | _ => none
      | _ => pVariable f ts

/-- `asignacion: variable "←" expresion` -/
def pAsignacion : Nat → Toks → Option Toks
  | 0, _ => none
  | f + 1, ts =>
    match pVariable f ts with
    | some (.arrow :: rest) => pExpresion f rest
    | _ => none

/-- `if_sentencia: "if" condicion "then" sentencias ("else" sentencias)?` -/
def pIfSentencia : Nat → Toks → Option Toks
  | 0, _ => none
  | f + 1, ts =>
    match ts with
    | .kw "if" :: rest =>
      match pExpresion f rest with
      | some (.kw "then" :: r2) =>
        match pSentencias f r2 with
        | some (.kw "else" :: r3) => pSentencias f r3
        | some r3 => some r3
        | none => none
      | _ => none
    | _ => none

/-- `for_sentencia: "for" IDENTIFICADOR "←" expresion ("to" | "downto")
expresion "do" sentencias` -/
def pForSentencia : Nat → Toks → Option Toks
  | 0, _ => none
  | f + 1, ts =>
    match ts with
    | .kw "for" :: .ident _ :: .arrow :: rest =>
      match pExpresion f rest with
      | some (.kw "to" :: r2) => pForFin f r2
      | some (.kw "downto" :: r2) => pForFin f r2
      | _ => none
    | _ => none

/-- The `expresion "do" sentencias` suffix of `for_sentencia`. -/
def pForFin : Nat → Toks → Option Toks
  | 0, _ => none
  | f + 1, ts =>
    match pExpresion f ts with
    | some (.kw "do" :: rest) => pSentencias f rest
    | _ => none

/-- `while_sentencia: "while" condicion "do" sentencias` -/
def pWhileSentencia : Nat → Toks → Option Toks
  | 0, _ => none
  | f + 1, ts =>
    match ts with
    | .kw "while" :: rest =>
      match pExpresion f rest with
      | some (.kw "do" :: r2) => pSentencias f r2
      | _ => none
    | _ => none

/-- `return_sentencia: "return" expresion` -/
def pReturnSentencia : Nat → Toks → Option Toks
  | 0, _ => none
  | f + 1, ts =>
    match ts with
    | .kw "return" :: rest => pExpresion f rest
    | _ => none

/-- `?sentencia: asignacion | if_sentencia | for_sentencia | while_sentencia
| call_funcion | return_sentencia` -/
def pSentencia : Nat → Toks → Option Toks
  | 0, _ => none
  | f + 1, ts =>
    match pAsignacion f ts with
    | some r => some r
    | none =>
      match pIfSentencia f ts with
      | some r => some r
      | none =>
        match pForSentencia f ts with
        | some r => some r
        | none =>
          match pWhileSentencia f ts with
          | some r => some r
          | none =>
            match pCallFuncion f ts with
            | some r => some r
            | none => pReturnSentencia f ts

/-- `sentencias: (sentencia)+` (greedy). -/
def pSentencias : Nat → Toks → Option Toks
  | 0, _ => none
  | f + 1, ts =>
    match pSentencia f ts with
    | some r =>
      match pSentencias f r with
      | some r2 => some r2
      | none => some r
    | none => none

end

/-- `parametro_lista: IDENTIFICADOR ("," IDENTIFICADOR)*` -/
def pParametroLista : Toks → Option Toks
  | .ident _ :: .comma :: rest => pParametroLista rest
  | .ident _ :: rest => some rest
  | _ => none

/-- `declaracion_funcion: IDENTIFICADOR "(" [parametro_lista] ")" sentencias` -/
def pDeclaracionFuncion (f : Nat) : Toks → Option Toks
  | .ident _ :: .lparen :: .rparen :: rest => pSentencias f rest
  | .ident _ :: .lparen :: rest =>
    match pParametroLista rest with
    | some (.rparen :: r) => pSentencias f r
    | _ => none
  | _ => none

/-- One item of `?start: (sentencia | declaracion_funcion)+`. -/
def pStartItem (f : Nat) (ts : Toks) : Option Toks :=
  match pSentencia f ts with
  | some r => some r
  | none => pDeclaracionFuncion f ts

/-- The greedy tail of the `start` plus-loop. -/
def pStartRest : Nat → Toks → Option Toks
  | 0, ts => some ts
  | f + 1, ts =>
    match pStartItem f ts with
    | some r => pStartRest f r
    | none => some ts

/-- `?start: (sentencia | declaracion_funcion)+` -/
def pStart (f : Nat) (ts : Toks) : Option Toks :=
  match pStartItem f ts with
  | none => none
  | some r => pStartRest f r

/-- `Grammar.validar_sentencia(codigo)`: true exactly when the Lark parser
accepts the whole input (tokenization succeeds and the token stream derives
`start` with nothing left over), false on any `LarkError`. -/
def validar_sentencia (codigo : String) : Bool :=
  match tokenize codigo with
  | none => false
  | some ts =>
    match pStart (64 * (ts.length + 1)) ts with
    | some [] => true
    | _ => false

end Grammar

namespace Parser

/-- Pattern `pat` occurs at the head of `l`. -/
def beginsWith : List Char → List Char → Bool
  | [], _ => true
  | _ :: _, [] => false
  | p :: ps, c :: cs => p = c && beginsWith ps cs

/-- Pattern `pat` occurs somewhere in `l` (Python's `pat in s`). -/
def hasSub (pat : List Char) : List Char → Bool
  | [] => beginsWith pat []
  | c :: cs => beginsWith pat (c :: cs) || hasSub pat cs

/-- Outcome of `Parser.parsear`: a successful `AST` object wrapping the
Python statement list, a raised `SyntaxError`, or a raised
`ConnectionError`. -/
inductive PResult where
  | ok (arbol : List Stmt)
  | errSyntax (msg : String)
  | errConnection (msg : String)
deriving Repr

/-- Did `parsear` return normally? -/
def PResult.isOk : PResult → Bool
  | .ok _ => true
  | _ => false

/-- The message of the `SyntaxError` raised when validation fails. -/
def mensajeSintaxis : String :=
  "Error de sintaxis: El pseudocódigo no es válido según la gramática."

/-- `Parser.validar_sintaxis`: delegates to `Grammar.validar_sentencia`. -/
def validar_sintaxis (pseudocodigo : String) : Bool :=
  Grammar.validar_sentencia pseudocodigo

/-- `Parser.parsear(pseudocodigo)`.  The two external collaborators are
passed in explicitly: `llm` models
`LLMService.traducir_pseudocodigo_a_python` (a network call returning the
generated Python text) and `pyParse` models Python's `ast.parse` inside the
`AST` constructor (`some` on syntactically valid Python).  The pipeline is:
validate (else raise `SyntaxError`), translate via the LLM (empty output or
an output containing `"# Error"` raises `ConnectionError`), then build the
`AST` (invalid generated Python raises `SyntaxError`). -/
def parsear (llm : String → String) (pyParse : String → Option (List Stmt))
    (pseudocodigo : String) : PResult :=
  if validar_sintaxis pseudocodigo = false then
    .errSyntax mensajeSintaxis
  else
    let codigoPython := llm pseudocodigo
    if codigoPython = "" || hasSub "# Error".data codigoPython.data then
      .errConnection ("Error de traducción: El servicio LLM falló. Detalles: " ++ codigoPython)
    else
      match pyParse codigoPython with
      | some arbol => .ok arbol
      | none =>
        .errSyntax ("El código generado por el LLM no es válido. Código recibido:\n" ++ codigoPython)

end Parser

/-- Specification-side predicate: the subtree of a statement, walked the way
`ast.walk` walks it (through conditionals, loop bodies and nested function
declarations alike), contains a `Break` node. -/
inductive HasBreak : Stmt → Prop where
  | isBreak (ln : Nat) : HasBreak (.breakStmt ln)
  | inIfBody {ln : Nat} {body orelse : List Stmt} {s : Stmt}
      (hs : s ∈ body) (h : HasBreak s) : HasBreak (.ifStmt ln body orelse)
  | inIfElse {ln : Nat} {body orelse : List Stmt} {s : Stmt}
      (hs : s ∈ orelse) (h : HasBreak s) : HasBreak (.ifStmt ln body orelse)
  | inForBody {ln : Nat} {tgt : String} {lo hi : Bound} {body : List Stmt} {s : Stmt}
      (hs : s ∈ body) (h : HasBreak s) : HasBreak (.forStmt ln tgt lo hi body)
  | inWhileBody {ln : Nat} {body : List Stmt} {s : Stmt}
      (hs : s ∈ body) (h : HasBreak s) : HasBreak (.whileStmt ln body)
  | inFunctionBody {ln : Nat} {name : String} {body : List Stmt} {s : Stmt}
      (hs : s ∈ body) (h : HasBreak s) : HasBreak (.functionDef ln name body)

/-! ### Concrete example programs (Python `ast` level, as the LLM translation
produces them) -/

/-- The insertion-sort-style program of the specification's concrete
scenario (`for j ← 2 to n do … while i > 0 and A[i] > key do …`, no break),
at the level of the translated Python module: a function whose body is a
`for` over `j` containing two assignments, a two-assignment `while`, and a
final assignment. -/
def insertionSort : List Stmt :=
  [.functionDef 1 "insertion_sort"
    [.forStmt 2 "j" (.lit 2) (.sym "n")
      [.assign 3, .assign 4,
       .whileStmt 5 [.assign 6, .assign 7],
       .assign 8]]]

/-- The linear-search scenario: a single `for` whose body is an `if` that
assigns and breaks on match. -/
def linearSearch : List Stmt :=
  [.forStmt 1 "i" (.lit 1) (.sym "n")
    [.ifStmt 2 [.assign 3, .breakStmt 4] []]]

/-- A straight-line program of three assignments. -/
def threeAssigns : List Stmt := [.assign 1, .assign 2, .assign 3]

/-- A `for` whose range has two literal bounds (`range(1, 3)`), body one
assignment. -/
def forLitBounds : List Stmt := [.forStmt 1 "i" (.lit 1) (.lit 3) [.assign 2]]

/-- A single `while` containing an assignment and a `break` (divergent
bounds: O(n) but Ω(1)). -/
def whileConBreak : List Stmt := [.whileStmt 1 [.assign 2, .breakStmt 3]]

/-! ### Lexer soundness: a `:` outside comments always fails tokenization -/

namespace Grammar

theorem stripComments_nil : stripComments [] = [] := by
  simp [stripComments]

theorem stripComments_cons (ch : Char) (rest : List Char)
    (h : ch ≠ '/' ∨ rest.head? ≠ some '/') :
    stripComments (ch :: rest) = ch :: stripComments rest := by
  have hcond : ¬((ch = '/' && rest.head? = some '/') = true) := by
    simp only [Bool.and_eq_true, decide_eq_true_eq]
    rintro ⟨h1, h2⟩
    rcases h with h | h
    · exact h h1
    · exact h h2
  rw [stripComments, if_neg hcond]

theorem stripComments_comment (rest : List Char) :
    stripComments ('/' :: '/' :: rest) =
      stripComments (rest.dropWhile (fun d => d ≠ '\n')) := by
  rw [stripComments, if_pos (by simp), List.dropWhile_cons]
  simp

theorem stripComments_append (t r : List Char) (h : ∀ c ∈ t, c ≠ '/') :
    stripComments (t ++ r) = t ++ stripComments r := by
  induction t with
  | nil => simp
  | cons a t ih =>
    rw [List.cons_append,
        stripComments_cons a (t ++ r) (Or.inl (h a (List.mem_cons_self a t))),
        ih fun c hc => h c (List.mem_cons_of_mem a hc)]
    simp

theorem isIdentChar_ne_slash {c : Char} (h : isIdentChar c = true) : c ≠ '/' := by
  intro e
  subst e
  exact absurd h (by decide)

theorem isIdentChar_ne_colon {c : Char} (h : isIdentChar c = true) : c ≠ ':' := by
  intro e
  subst e
  exact absurd h (by decide)

theorem isDigit_ne_slash {c : Char} (h : c.isDigit = true) : c ≠ '/' := by
  intro e
  subst e
  exact absurd h (by decide)

theorem isDigit_ne_colon {c : Char} (h : c.isDigit = true) : c ≠ ':' := by
  intro e
  subst e
  exact absurd h (by decide)

theorem no_colon_cons {ch : Char} {rest : List Char}
    (hne : ch ≠ '/' ∨ rest.head? ≠ some '/') (hc : ch ≠ ':')
    (hrest : ':' ∉ stripComments rest) : ':' ∉ stripComments (ch :: rest) := by
  rw [stripComments_cons ch rest hne]
  intro hm
  rcases List.mem_cons.mp hm with he | hm'
  · exact hc he.symm
  · exact hrest hm'

theorem no_colon_chunk {p : Char → Bool}
    (hps : ∀ c, p c = true → c ≠ '/') (hpc : ∀ c, p c = true → c ≠ ':')
    {ch : Char} {rest : List Char} (hchs : ch ≠ '/') (hchc : ch ≠ ':')
    (hrec : ':' ∉ stripComments (rest.dropWhile p)) :
    ':' ∉ stripComments (ch :: rest) := by
  have hsplit : stripComments rest =
      rest.takeWhile p ++ stripComments (rest.dropWhile p) := by
    conv_lhs => rw [← List.takeWhile_append_dropWhile (p := p) (l := rest)]
    exact stripComments_append _ _ fun c hc => hps c (List.mem_takeWhile_imp hc)
  refine no_colon_cons (Or.inl hchs) hchc ?_
  rw [hsplit]
  intro hm
  rcases List.mem_append.mp hm with hm' | hm'
  · exact hpc ':' (List.mem_takeWhile_imp hm') rfl
  · exact hrec hm'

/-- A lexer step that does not fail preserves the no-visible-colon property:
whatever span the step consumed contained no colon outside comments. -/
theorem lexStep_no_colon {ch : Char} {rest r : List Char}
    (h : lexStep ch rest = .skip r ∨ ∃ tk, lexStep ch rest = .emit tk r)
    (hr : ':' ∉ stripComments r) : ':' ∉ stripComments (ch :: rest) := by
  unfold lexStep at h
  by_cases h1 : ch.isWhitespace
  · rw [if_pos h1] at h
    rcases h with h | ⟨tk, h⟩
    · cases h
      refine no_colon_cons (Or.inl ?_) ?_ hr
      · intro e; rw [e] at h1; exact absurd h1 (by decide)
      · intro e; rw [e] at h1; exact absurd h1 (by decide)
    · cases h
  rw [if_neg h1] at h
  by_cases h2 : (ch = '/' && rest.head? = some '/') = true
  · rw [if_pos h2] at h
    rcases h with h | ⟨tk, h⟩
    · cases h
      rw [Bool.and_eq_true, decide_eq_true_eq, decide_eq_true_eq] at h2
      obtain ⟨hch, hhd⟩ := h2
      subst hch
      cases rest with
      | nil => simp at hhd
      | cons d rest' =>
        have hd : d = '/' := by simpa using hhd
        subst hd
        rw [stripComments_comment]
        have harg : List.dropWhile (fun d => d ≠ '\n') ('/' :: rest') =
            List.dropWhile (fun d => d ≠ '\n') rest' := by
          simp [List.dropWhile_cons]
        rw [harg] at hr
        exact hr
    · cases h
  rw [if_neg h2] at h
  by_cases h3 : ch = '←'
  · rw [if_pos h3] at h
    rcases h with h | ⟨tk, h⟩
    · cases h
    · cases h
      subst h3
      exact no_colon_cons (Or.inl (by decide)) (by decide) hr
  rw [if_neg h3] at h
  by_cases h4 : isRelOp ch
  · rw [if_pos h4] at h
    rcases h with h | ⟨tk, h⟩
    · cases h
    · cases h
      refine no_colon_cons (Or.inl ?_) ?_ hr
      · intro e; rw [e] at h4; exact absurd h4 (by decide)
      · intro e; rw [e] at h4; exact absurd h4 (by decide)
  rw [if_neg h4] at h
  by_cases h5 : ch = '+'
  · rw [if_pos h5] at h
    rcases h with h | ⟨tk, h⟩
    · cases h
    · cases h
      subst h5
      exact no_colon_cons (Or.inl (by decide)) (by decide) hr
  rw [if_neg h5] at h
  by_cases h6 : ch = '-'
  · rw [if_pos h6] at h
    rcases h with h | ⟨tk, h⟩
    · cases h
    · cases h
      subst h6
      exact no_colon_cons (Or.inl (by decide)) (by decide) hr
  rw [if_neg h6] at h
  by_cases h7 : ch = '*'
  · rw [if_pos h7] at h
    rcases h with h | ⟨tk, h⟩
    · cases h
    · cases h
      subst h7
      exact no_colon_cons (Or.inl (by decide)) (by decide) hr
  rw [if_neg h7] at h
  by_cases h8 : ch = '/'
  · rw [if_pos h8] at h
    rcases h with h | ⟨tk, h⟩
    · cases h
    · cases h
      subst h8
      refine no_colon_cons (Or.inr ?_) (by decide) hr
      intro hhd
      exact h2 (by simp [hhd])
  rw [if_neg h8] at h
  by_cases h9 : ch = '('
  · rw [if_pos h9] at h
    rcases h with h | ⟨tk, h⟩
    · cases h
    · cases h
      subst h9
      exact no_colon_cons (Or.inl (by decide)) (by decide) hr
  rw [if_neg h9] at h
  by_cases h10 : ch = ')'
  · rw [if_pos h10] at h
    rcases h with h | ⟨tk, h⟩
    · cases h
    · cases h
      subst h10
      exact no_colon_cons (Or.inl (by decide)) (by decide) hr
  rw [if_neg h10] at h
  by_cases h11 : ch = '['
  · rw [if_pos h11] at h
    rcases h with h | ⟨tk, h⟩
    · cases h
    · cases h
      subst h11
      exact no_colon_cons (Or.inl (by decide)) (by decide) hr
  rw [if_neg h11] at h
  by_cases h12 : ch = ']'
  · rw [if_pos h12] at h
    rcases h with h | ⟨tk, h⟩
    · cases h
    · cases h
      subst h12
      exact no_colon_cons (Or.inl (by decide)) (by decide) hr
  rw [if_neg h12] at h
  by_cases h13 : ch = '.'
  · rw [if_pos h13] at h
    rcases h with h | ⟨tk, h⟩
    · cases h
    · cases h
      subst h13
      exact no_colon_cons (Or.inl (by decide)) (by decide) hr
  rw [if_neg h13] at h
  by_cases h14 : ch = ','
  · rw [if_pos h14] at h
    rcases h with h | ⟨tk, h⟩
    · cases h
    · cases h
      subst h14
      exact no_colon_cons (Or.inl (by decide)) (by decide) hr
  rw [if_neg h14] at h
  by_cases h15 : isIdentStart ch
  · rw [if_pos h15] at h
    rcases h with h | ⟨tk, h⟩
    · cases h
    · cases h
      refine no_colon_chunk (fun c hc => isIdentChar_ne_slash hc)
        (fun c hc => isIdentChar_ne_colon hc) ?_ ?_ hr
      · intro e; rw [e] at h15; exact absurd h15 (by decide)
      · intro e; rw [e] at h15; exact absurd h15 (by decide)
  rw [if_neg h15] at h
  by_cases h16 : ch.isDigit
  · rw [if_pos h16] at h
    rcases h with h | ⟨tk, h⟩
    · cases h
    · cases h
      refine no_colon_chunk (fun c hc => isDigit_ne_slash hc)
        (fun c hc => isDigit_ne_colon hc) ?_ ?_ hr
      · intro e; rw [e] at h16; exact absurd h16 (by decide)
      · intro e; rw [e] at h16; exact absurd h16 (by decide)
  rw [if_neg h16] at h
  rcases h with h | ⟨tk, h⟩
  · cases h
  · cases h

/-- Successful tokenization implies the comment-stripped input has no `:`
character: no terminal of the grammar can consume a colon, so the lexer
(and with it `validar_sentencia` and `parsear`) must reject it. -/
theorem tokenizeAux_no_colon :
    ∀ (fuel : Nat) (cs : List Char) (ts : List Token),
      tokenizeAux fuel cs = some ts → ':' ∉ stripComments cs := by
  intro fuel
  induction fuel with
  | zero =>
    intro cs ts h
    cases cs with
    | nil => simp [stripComments_nil]
    | cons ch rest => exact absurd h (by simp [tokenizeAux])
  | succ f ih =>
    intro cs ts h
    cases cs with
    | nil => simp [stripComments_nil]
    | cons ch rest =>
      rw [show tokenizeAux (f + 1) (ch :: rest) =
            (match lexStep ch rest with
              | .skip r => tokenizeAux f r
              | .emit tk r => (tokenizeAux f r).map (tk :: ·)
              | .fail => none) from rfl] at h
      cases hstep : lexStep ch rest with
      | skip r =>
        rw [hstep] at h
        exact lexStep_no_colon (Or.inl hstep) (ih r ts h)
      | emit tk r =>
        rw [hstep] at h
        obtain ⟨ts', hts', -⟩ := Option.map_eq_some'.mp h
        exact lexStep_no_colon (Or.inr ⟨tk, hstep⟩) (ih r ts' hts')
      | fail =>
        rw [hstep] at h
        cases h

/-- Any `:` outside comments makes `Grammar.validar_sentencia` reject. -/
theorem validar_sentencia_colon (s : String) (h : ':' ∈ stripComments s.data) :
    validar_sentencia s = false := by
  have htok : tokenize s = none := by
    cases heq : tokenize s with
    | none => rfl
    | some ts => exact absurd h (tokenizeAux_no_colon _ _ ts heq)
  simp [validar_sentencia, htok]

end Grammar

/-! ### Characterization of the early-exit scan -/

mutual

/-- `containsBreak` decides exactly the presence of a `Break` node in the
statement's `ast.walk` subtree (nested function declarations included). -/
theorem containsBreak_iff : ∀ s : Stmt, containsBreak s = true ↔ HasBreak s
  | .assign ln => by
    constructor
    · intro h; simp [containsBreak] at h
    · intro h; nomatch h
  | .ifStmt ln body orelse => by
    rw [containsBreak, Bool.or_eq_true, anyBreak_iff body, anyBreak_iff orelse]
    constructor
    · rintro (⟨s, hs, hb⟩ | ⟨s, hs, hb⟩)
      · exact .inIfBody hs hb
      · exact .inIfElse hs hb
    · intro h
      cases h with
      | inIfBody hs hb => exact Or.inl ⟨_, hs, hb⟩
      | inIfElse hs hb => exact Or.inr ⟨_, hs, hb⟩
  | .forStmt ln tgt lo hi body => by
    rw [containsBreak, anyBreak_iff body]
    constructor
    · rintro ⟨s, hs, hb⟩
      exact .inForBody hs hb
    · intro h
      cases h with
      | inForBody hs hb => exact ⟨_, hs, hb⟩
  | .whileStmt ln body => by
    rw [containsBreak, anyBreak_iff body]
    constructor
    · rintro ⟨s, hs, hb⟩
      exact .inWhileBody hs hb
    · intro h
      cases h with
      | inWhileBody hs hb => exact ⟨_, hs, hb⟩
  | .breakStmt ln => by
    simp [containsBreak]
    exact .isBreak ln
  | .returnStmt ln => by
    constructor
    · intro h; simp [containsBreak] at h
    · intro h; nomatch h
  | .exprCall ln => by
    constructor
    · intro h; simp [containsBreak] at h
    · intro h; nomatch h
  | .functionDef ln name body => by
    rw [containsBreak, anyBreak_iff body]
    constructor
    · rintro ⟨s, hs, hb⟩
      exact .inFunctionBody hs hb
    · intro h
      cases h with
      | inFunctionBody hs hb => exact ⟨_, hs, hb⟩

/-- `anyBreak` over a statement list finds exactly the lists one of whose
members has a `Break` in its subtree. -/
theorem anyBreak_iff : ∀ l : List Stmt, anyBreak l = true ↔ ∃ s ∈ l, HasBreak s
  | [] => by simp [anyBreak]
  | s :: rest => by
    rw [anyBreak, Bool.or_eq_true, containsBreak_iff s, anyBreak_iff rest,
        List.exists_mem_cons_iff]

end

/-- A divergent-bounds Θ report is never the Θ-of-worst-case default. -/
theorem noAplicable_ne_theta (s : String) : "No aplicable" ≠ "Θ(" ++ s ++ ")" := by
  intro e
  have h := congrArg String.data e
  simp [String.data_append] at h

/-! ### Claims -/

open CostExpr EfficiencyVisitor

/-- C1, counterexample.  The claim predicts that for the insertion-sort-style
program (outer `for` with an inner breakless `while`) the analysis yields
Ω(n^2) and Θ(n^2).  On the code, the breakless `while` keeps its best-case
trip count as the opaque symbol `t_j_mejor` (not `n`), so the best-case cost
is linear in `n`: the produced result is Ω(n), and Θ is the divergent-bounds
value "No aplicable", not Θ(n^2). -/
theorem C1_counterexample :
    (Analizador.analizar insertionSort).notacionO = "O(n**2)" ∧
    (Analizador.analizar insertionSort).notacionOmega = "Ω(n)" ∧
    (Analizador.analizar insertionSort).notacionOmega ≠ "Ω(n**2)" ∧
    (Analizador.analizar insertionSort).notacionTheta = "No aplicable" ∧
    (Analizador.analizar insertionSort).notacionTheta ≠ "Θ(n**2)" := by
  refine ⟨by decide, by decide, by decide, by decide, by decide⟩

/-- C1, amended.  For every `while` whose subtree contains no break, the
best-case contribution keeps the symbolic trip count `t_j_mejor`:
`Sum(c_i, 1, t_j_mejor + 1)` for the test plus
`Sum(bodyBest, 1, t_j_mejor)` for the body; consequently the
insertion-sort-style program yields O(n^2) for the worst case but Ω(n) for
the best case, and no Θ ("No aplicable"). -/
theorem C1_amended (st : VState) (ln : Nat) (body : List Stmt)
    (hnb : anyBreak body = false) :
    (visit st (.whileStmt ln body)).best =
      addE (addE st.best (ssumE (.c st.constIdx) (addE .tj (.num 1))))
        (ssumE (visitList initState body).best .tj) ∧
    (Analizador.analizar insertionSort).notacionO = "O(n**2)" ∧
    (Analizador.analizar insertionSort).notacionOmega = "Ω(n)" ∧
    (Analizador.analizar insertionSort).notacionTheta = "No aplicable" := by
  refine ⟨?_, by decide, by decide, by decide⟩
  simp [visit, getConst, addCost, hnb]

/-- C1, witness for the amended theorem at a concrete breakless body. -/
theorem C1_amended_witness :
    anyBreak [Stmt.assign 6, Stmt.assign 7] = false ∧
    (visit initState (.whileStmt 5 [Stmt.assign 6, Stmt.assign 7])).best =
      addE (addE initState.best (ssumE (.c initState.constIdx) (addE .tj (.num 1))))
        (ssumE (visitList initState [Stmt.assign 6, Stmt.assign 7]).best .tj) :=
  ⟨by decide, (C1_amended initState 5 [Stmt.assign 6, Stmt.assign 7] (by decide)).1⟩

/-- C2, counterexample.  `"x ← 1"` validates, yet `parsear` fails with
`ConnectionError` when the external LLM translation returns its error
marker; with a successful translation the same input parses.  The outcome
of `parsear` thus depends on the external LLM call (parsing is not pure),
and `validate(t) = true` does not imply that `parse(t)` succeeds. -/
theorem C2_counterexample :
    Parser.validar_sintaxis "x ← 1" = true ∧
    (Parser.parsear (fun _ => "# Error") (fun _ => none) "x ← 1").isOk = false ∧
    (Parser.parsear (fun _ => "x = 1") (fun _ => some [Stmt.assign 1]) "x ← 1").isOk
      = true := by
  refine ⟨by decide, by decide, by decide⟩

/-- C2, amended.  One direction of the claimed equivalence does hold: if
`parsear` succeeds then `validar` accepted the text (for every behavior of
the two external collaborators).  The converse fails, and parsing performs
an external call. -/
theorem C2_amended (llm : String → String) (pyParse : String → Option (List Stmt))
    (t : String) (arbol : List Stmt)
    (hok : Parser.parsear llm pyParse t = .ok arbol) :
    Parser.validar_sintaxis t = true := by
  by_cases hv : Parser.validar_sintaxis t = false
  · unfold Parser.parsear at hok
    rw [if_pos hv] at hok
    cases hok
  · exact eq_true_of_ne_false hv

/-- C2, witness for the amended theorem with a concrete successful parse. -/
theorem C2_amended_witness :
    Parser.parsear (fun _ => "x = 1") (fun _ => some [Stmt.assign 1]) "x ← 1"
      = .ok [Stmt.assign 1] ∧
    Parser.validar_sintaxis "x ← 1" = true :=
  ⟨by rfl, C2_amended (fun _ => "x = 1") (fun _ => some [Stmt.assign 1])
    "x ← 1" [Stmt.assign 1] (by rfl)⟩

/-- C3.  Whenever the dominant term of the worst-case cost differs from the
dominant term of the best-case cost, `analizar` reports Θ as the
indeterminate value "No aplicable", appends the explanatory note that the
two bounds diverge to the justification, and never defaults Θ to the
worst-case value `Θ(orden_peor)`. -/
theorem C3_theta_indeterminada (prog : List Stmt)
    (hdiv : ordenStr (doit (EfficiencyVisitor.run prog).worst) ≠
            ordenStr (doit (EfficiencyVisitor.run prog).best)) :
    (Analizador.analizar prog).notacionTheta = "No aplicable" ∧
    (∃ pre, (Analizador.analizar prog).justificacion =
      pre ++ Analizador.notaDivergencia) ∧
    (Analizador.analizar prog).notacionTheta ≠
      "Θ(" ++ ordenStr (doit (EfficiencyVisitor.run prog).worst) ++ ")" := by
  have hth : (Analizador.analizar prog).notacionTheta = "No aplicable" := by
    unfold Analizador.analizar
    dsimp only
    rw [if_neg hdiv]
  refine ⟨hth, ?_, ?_⟩
  · unfold Analizador.analizar
    dsimp only
    rw [if_neg hdiv]
    rw [if_neg (by simp)]
    exact ⟨_, rfl⟩
  · rw [hth]
    exact noAplicable_ne_theta _

/-- C3, witness: a `while` containing a break has worst-case dominant term
`n` but best-case dominant term `1`. -/
theorem C3_witness :
    (ordenStr (doit (EfficiencyVisitor.run whileConBreak).worst) ≠
      ordenStr (doit (EfficiencyVisitor.run whileConBreak).best)) ∧
    (Analizador.analizar whileConBreak).notacionTheta = "No aplicable" :=
  ⟨by decide, (C3_theta_indeterminada whileConBreak (by decide)).1⟩

/-- C4, counterexample.  For the linear-search program (single `for` whose
body breaks on match) the claim predicts Ω(1) and an indeterminate Θ; the
code applies no early-exit collapse to `for` loops, so the produced result
is Ω(n) and Θ(n). -/
theorem C4_counterexample :
    (Analizador.analizar linearSearch).notacionO = "O(n)" ∧
    (Analizador.analizar linearSearch).notacionOmega = "Ω(n)" ∧
    (Analizador.analizar linearSearch).notacionOmega ≠ "Ω(1)" ∧
    (Analizador.analizar linearSearch).notacionTheta = "Θ(n)" ∧
    (Analizador.analizar linearSearch).notacionTheta ≠ "No aplicable" := by
  refine ⟨by decide, by decide, by decide, by decide, by decide⟩

/-- C4, amended.  The linear-search program yields O(n), Ω(n) and Θ(n): the
break inside the `for` body is ignored for the best case, because only
`visit_While` performs early-exit detection. -/
theorem C4_amended :
    (Analizador.analizar linearSearch).notacionO = "O(n)" ∧
    (Analizador.analizar linearSearch).notacionOmega = "Ω(n)" ∧
    (Analizador.analizar linearSearch).notacionTheta = "Θ(n)" := by
  refine ⟨by decide, by decide, by decide⟩

/-- C5, counterexample.  The claim predicts that a `for` whose bounds are
both literal constants is summed over its concrete trip count; the code
never reads the bounds, so `forLitBounds` (a `range(1, 3)` loop) still
contributes `Sum(bodyCost, 1, n)` and the produced result is O(n), not the
O(1) a 2-iteration constant-cost loop would give. -/
theorem C5_counterexample :
    (EfficiencyVisitor.run forLitBounds).worst =
      .add (.c 1) (.ssum (.c 1) .sn) ∧
    (Analizador.analizar forLitBounds).notacionO = "O(n)" ∧
    (Analizador.analizar forLitBounds).notacionO ≠ "O(1)" := by
  refine ⟨by decide, by decide, by decide⟩

/-- C5, amended.  For every `for` loop, both the worst-case and the
best-case contributions are a `Sum` of the respective body cost from `1` to
the symbol `n`, regardless of the loop's declared bounds (literal or not),
and no early-exit collapse is applied to the best case. -/
theorem C5_amended (st : VState) (ln : Nat) (tgt : String) (lo hi : Bound)
    (body : List Stmt) :
    (visit st (.forStmt ln tgt lo hi body)).worst =
      addE (addE st.worst (.c st.constIdx))
        (ssumE (visitList initState body).worst .sn) ∧
    (visit st (.forStmt ln tgt lo hi body)).best =
      addE (addE st.best (.c st.constIdx))
        (ssumE (visitList initState body).best .sn) := by
  constructor <;> simp [visit, getConst, addCost]

/-- C6, counterexample.  The early-exit detection is only a `Break` scan:
a loop body consisting of an unconditionally reachable `return` is not
detected (the best-case trip count stays `t_j_mejor` instead of collapsing
to 1), and the scan does descend into a nested function declaration's body
(a break there is found). -/
theorem C6_counterexample :
    anyBreak [Stmt.returnStmt 2] = false ∧
    (visit initState (.whileStmt 1 [Stmt.returnStmt 2])).best =
      .ssum (.c 1) (.add .tj (.num 1)) ∧
    anyBreak [Stmt.functionDef 2 "f" [Stmt.whileStmt 3 [Stmt.breakStmt 4]]]
      = true := by
  refine ⟨by decide, by decide, by decide⟩

/-- C6, amended.  The detection used by `visit_While` returns true exactly
when the scanned subtree contains a `Break` node (`return` never counts),
the scan descends into nested function declarations' bodies, and the
best-case trip count is `1` when a break is found and the opaque symbol
`t_j_mejor` otherwise. -/
theorem C6_amended (st : VState) (ln : Nat) (body : List Stmt) :
    ((visit st (.whileStmt ln body)).best =
      addE (addE st.best (ssumE (.c st.constIdx)
          (addE (if anyBreak body then .num 1 else .tj) (.num 1))))
        (ssumE (visitList initState body).best
          (if anyBreak body then .num 1 else .tj))) ∧
    (anyBreak body = true ↔ ∃ s ∈ body, HasBreak s) := by
  refine ⟨?_, anyBreak_iff body⟩
  by_cases hb : anyBreak body <;> simp [visit, getConst, addCost, hb]

/-- C7.  For every conditional, the visitor charges one fresh constant for
the test (the constant counter advances by exactly one), analyzes both
branches as independent sub-analyses started from a fresh visitor state,
adds `Max` of the branch worst costs to the worst case and `Min` of the
branch best costs to the best case, and an absent `else` branch contributes
the zero expression. -/
theorem C7_condicional (st : VState) (ln : Nat) (thenB elseB : List Stmt) :
    (visit st (.ifStmt ln thenB elseB)).worst =
      addE (addE st.worst (.c st.constIdx))
        (maxE (visitList initState thenB).worst (visitList initState elseB).worst) ∧
    (visit st (.ifStmt ln thenB elseB)).best =
      addE (addE st.best (.c st.constIdx))
        (minE (visitList initState thenB).best (visitList initState elseB).best) ∧
    (visit st (.ifStmt ln thenB elseB)).constIdx = st.constIdx + 1 ∧
    (visitList initState ([] : List Stmt)).worst = .num 0 ∧
    (visitList initState ([] : List Stmt)).best = .num 0 := by
  refine ⟨?_, ?_, ?_, by decide, by decide⟩ <;>
    by_cases he : elseB.isEmpty <;> simp [visit, getConst, addCost, he]

/-- C8, counterexample.  The claim charges every elementary statement
(assignment, return, call) one fresh constant and one LineCost; in the code
only assignments are charged: a `return` or a call statement leaves the
visitor state unchanged, so an assign-then-return program records one
LineCost, not two. -/
theorem C8_counterexample :
    visit initState (.returnStmt 2) = initState ∧
    visit initState (.exprCall 3) = initState ∧
    (EfficiencyVisitor.run [Stmt.assign 1, Stmt.returnStmt 2]).lineCosts.length
      = 1 ∧
    (EfficiencyVisitor.run [Stmt.assign 1, Stmt.returnStmt 2]).lineCosts.length
      ≠ 2 := by
  refine ⟨by decide, by decide, by decide, by decide⟩

/-- C8, amended.  An assignment is charged one fresh constant `c_i` with
worst = best and exactly one LineCost entry; `return` and call statements
are charged nothing (state unchanged); the three-assignment straight-line
program still yields O(1), Ω(1), Θ(1) with a LineCost trace of exactly 3
entries. -/
theorem C8_amended (st : VState) (ln : Nat) :
    (visit st (.assign ln)).worst = addE st.worst (.c st.constIdx) ∧
    (visit st (.assign ln)).best = addE st.best (.c st.constIdx) ∧
    (visit st (.assign ln)).lineCosts = st.lineCosts ++
      [⟨ln, costStr (.c st.constIdx) (.c st.constIdx), "Asignación"⟩] ∧
    (visit st (.assign ln)).constIdx = st.constIdx + 1 ∧
    (∀ (st' : VState) (ln' : Nat), visit st' (.returnStmt ln') = st') ∧
    (∀ (st' : VState) (ln' : Nat), visit st' (.exprCall ln') = st') ∧
    (Analizador.analizar threeAssigns).notacionO = "O(1)" ∧
    (Analizador.analizar threeAssigns).notacionOmega = "Ω(1)" ∧
    (Analizador.analizar threeAssigns).notacionTheta = "Θ(1)" ∧
    (EfficiencyVisitor.run threeAssigns).lineCosts.length = 3 := by
  refine ⟨?_, ?_, ?_, ?_, fun st' ln' => by simp [visit], fun st' ln' => by simp [visit],
    by decide, by decide, by decide, by decide⟩ <;>
    simp [visit, getConst, addCost]

/-- C9.  Any input using `:=` for assignment has a `:` outside comments; no
terminal of the grammar can consume `:`, so `validar` rejects the input and
`parsear` raises the SyntaxError, for every behavior of the external
collaborators — it is never accepted silently. -/
theorem C9_dos_puntos (s : String) (h : ':' ∈ Grammar.stripComments s.data) :
    Grammar.validar_sentencia s = false ∧
    Parser.validar_sintaxis s = false ∧
    ∀ (llm : String → String) (pyParse : String → Option (List Stmt)),
      Parser.parsear llm pyParse s = .errSyntax Parser.mensajeSintaxis := by
  have hv := Grammar.validar_sentencia_colon s h
  refine ⟨hv, hv, fun llm pyParse => ?_⟩
  unfold Parser.parsear
  rw [if_pos (show Parser.validar_sintaxis s = false from hv)]

/-- C9, witness at the concrete malformed input `"x := 1"`. -/
theorem C9_witness :
    ':' ∈ Grammar.stripComments "x := 1".data ∧
    Grammar.validar_sentencia "x := 1" = false ∧
    Parser.parsear (fun _ => "x = 1") (fun _ => some [Stmt.assign 1]) "x := 1"
      = .errSyntax Parser.mensajeSintaxis := by
  have hmem : ':' ∈ Grammar.stripComments "x := 1".data := by
    simp [Grammar.stripComments]
  exact ⟨hmem, (C9_dos_puntos "x := 1" hmem).1,
    (C9_dos_puntos "x := 1" hmem).2.2 _ _⟩

/-- C10.  After `analizar` stores the `_analizar_eficiencia` dictionary as
the last analysis, the dictionary holds none of the structural keys, so
`calcular_o` and `calcular_omega` fall back to depth 0 / no early exit and
return "O(1)" and "Ω(1)" for every analyzed program. -/
theorem C10_claves_perdidas (prog : List Stmt) :
    Analizador.calcular_o (Analizador.ultimoTrasAnalizar prog) = "O(1)" ∧
    Analizador.calcular_omega (Analizador.ultimoTrasAnalizar prog) = "Ω(1)" ∧
    Analizador.dictGetNat (Analizador.ultimoTrasAnalizar prog)
      "max_profundidad" 0 = 0 ∧
    Analizador.dictGetBool (Analizador.ultimoTrasAnalizar prog)
      "hay_salida_temprana" false = false := by
  refine ⟨rfl, rfl, rfl, rfl⟩

end EffiCode

